import Mathlib

/-!
Verification of the Spectre hidden-transfer settlement protocol.

The ledger contract (`contracts/InvisibleTransfer.sol`) is embedded shallowly:
addresses, token addresses and bytes32 identifiers are modelled as `Nat`;
uint256 amounts are `Nat` with explicit revert checks where Solidity 0.8
checked arithmetic can overflow or underflow on amounts (the global
transaction counters and block timestamps are idealised as unbounded, since
wrapping them would take 2^256 transactions).  ERC20 token balances are a
ledger `token → account → Nat` with the standard transfer semantics of the
repository's MockERC20 test token (allowance bookkeeping elided: the tests
approve the maximal allowance once).  Fallible contract functions return
`Except Err EvmState`; an error models a revert, which leaves the state
unchanged.
-/

namespace Spectre

/-- The uint256 modulus; Solidity 0.8 reverts when an arithmetic result
would reach it. -/
def U256 : Nat := 2 ^ 256

/-- The `HiddenTransfer` struct of `InvisibleTransfer.sol`. -/
structure HiddenTransfer where
  sender : Nat
  token : Nat
  amount : Nat
  timestamp : Nat
  claimed : Bool
deriving Repr, DecidableEq

/-- The default value a Solidity mapping yields for an absent key. -/
def emptyRecord : HiddenTransfer :=
  { sender := 0, token := 0, amount := 0, timestamp := 0, claimed := false }

/-- The storage of the `InvisibleTransfer` contract, field for field, plus
the contract's own address (`address(this)`), which never changes. -/
structure ContractState where
  hiddenTransfers : Nat → HiddenTransfer
  userSentTransfers : Nat → List Nat
  userReceivedTransfers : Nat → List Nat
  owner : Nat
  totalTransfers : Nat
  totalClaimed : Nat
  platformFee : Nat
  feeCollector : Nat
  contractAddr : Nat

/-- Contract storage together with the ERC20 balance ledger
(token address → account → balance). -/
structure EvmState where
  contract : ContractState
  balances : Nat → Nat → Nat

/-- Revert reasons of the contract, one per `require` string. -/
inductive Err where
  | ZeroAmount
  | AlreadyExists
  | InvalidToken
  | Overflow
  | TokenTransferFailed
  | NotFound
  | AlreadyClaimed
  | NoAmount
  | NotSender
  | TooEarly
  | NotOwner
  | FeeTooHigh
  | InvalidAddress
deriving Repr, DecidableEq

/-- Standard ERC20 transfer on the balance ledger (semantics of the
repository's MockERC20: debit the source, credit the destination; a
self-transfer leaves the balance unchanged).  Callers check sufficiency
of the source balance before applying it. -/
def tokenTransfer (b : Nat → Nat → Nat) (tok src dst amt : Nat) : Nat → Nat → Nat :=
  fun t a =>
    if t = tok then
      if src = dst then b t a
      else if a = src then b t a - amt
      else if a = dst then b t a + amt
      else b t a
    else b t a

/-- The constructor of `InvisibleTransfer`: the deployer becomes owner and
fee collector, and the platform fee is set to the argument with no bound
check.  `b0` is the ambient token ledger at deployment. -/
def initState (deployer addr fee0 : Nat) (b0 : Nat → Nat → Nat) : EvmState :=
  { contract :=
    { hiddenTransfers := fun _ => emptyRecord
      userSentTransfers := fun _ => []
      userReceivedTransfers := fun _ => []
      owner := deployer
      totalTransfers := 0
      totalClaimed := 0
      platformFee := fee0
      feeCollector := deployer
      contractAddr := addr }
    balances := b0 }

/-- The post-state of a successful `publishHiddenTransfer`: pull `amt`
from the caller, forward the fee to the collector when positive, record
the transfer net of fee, append to the sender's list, bump the counter. -/
def publishResult (s : EvmState) (caller time hash tok amt : Nat) : EvmState :=
  let fee := amt * s.contract.platformFee / 10000
  let b1 := tokenTransfer s.balances tok caller s.contract.contractAddr amt
  let b2 := if 0 < fee then
      tokenTransfer b1 tok s.contract.contractAddr s.contract.feeCollector fee
    else b1
  { contract := { s.contract with
      hiddenTransfers := fun h => if h = hash then
          { sender := caller, token := tok, amount := amt - fee,
            timestamp := time, claimed := false }
        else s.contract.hiddenTransfers h
      userSentTransfers := fun u => if u = caller then
          s.contract.userSentTransfers u ++ [hash]
        else s.contract.userSentTransfers u
      totalTransfers := s.contract.totalTransfers + 1 }
    balances := b2 }

/-- `publishHiddenTransfer(_hash, _token, _amount)` called by `caller` at
block time `time`.  The guards mirror the source's `require` cascade:
positive amount, `timestamp == 0` sentinel, nonzero token address, then
checked arithmetic on `_amount * platformFee` and `_amount - fee`, then the
`transferFrom` of the full amount from the caller.  The fee forwarding
`require` cannot fail under the standard token model (the contract has just
received `amt ≥ fee`), so it has no guard here. -/
def publishHiddenTransfer (s : EvmState) (caller time hash tok amt : Nat) :
    Except Err EvmState :=
  if amt = 0 then .error .ZeroAmount
  else if (s.contract.hiddenTransfers hash).timestamp ≠ 0 then .error .AlreadyExists
  else if tok = 0 then .error .InvalidToken
  else if U256 ≤ amt * s.contract.platformFee then .error .Overflow
  else if amt < amt * s.contract.platformFee / 10000 then .error .Overflow
  else if s.balances tok caller < amt then .error .TokenTransferFailed
  else .ok (publishResult s caller time hash tok amt)

/-- The post-state of a successful `claimHiddenTransfer`: flip `claimed`,
bump `totalClaimed`, append to the caller's received list, pay the caller
the escrowed amount from the contract's custody. -/
def claimResult (s : EvmState) (caller hash : Nat) : EvmState :=
  let r := s.contract.hiddenTransfers hash
  { contract := { s.contract with
      hiddenTransfers := fun h => if h = hash then { r with claimed := true }
        else s.contract.hiddenTransfers h
      userReceivedTransfers := fun u => if u = caller then
          s.contract.userReceivedTransfers u ++ [hash]
        else s.contract.userReceivedTransfers u
      totalClaimed := s.contract.totalClaimed + 1 }
    balances := tokenTransfer s.balances r.token s.contract.contractAddr caller r.amount }

/-- `claimHiddenTransfer(_hash)` called by `caller`.  Requires, in source
order: the record exists (`timestamp > 0`), it is not claimed, its amount
is positive, and the payout token transfer succeeds.  No condition ever
mentions the caller. -/
def claimHiddenTransfer (s : EvmState) (caller hash : Nat) : Except Err EvmState :=
  if (s.contract.hiddenTransfers hash).timestamp = 0 then .error .NotFound
  else if (s.contract.hiddenTransfers hash).claimed then .error .AlreadyClaimed
  else if (s.contract.hiddenTransfers hash).amount = 0 then .error .NoAmount
  else if s.balances (s.contract.hiddenTransfers hash).token s.contract.contractAddr
      < (s.contract.hiddenTransfers hash).amount then .error .TokenTransferFailed
  else .ok (claimResult s caller hash)

/-- The post-state of a successful `cancelHiddenTransfer`: flip `claimed`
(reusing the flag to bar any further claim) and return the escrowed amount
to the caller; no counter and no list is touched. -/
def cancelResult (s : EvmState) (caller hash : Nat) : EvmState :=
  let r := s.contract.hiddenTransfers hash
  { contract := { s.contract with
      hiddenTransfers := fun h => if h = hash then { r with claimed := true }
        else s.contract.hiddenTransfers h }
    balances := tokenTransfer s.balances r.token s.contract.contractAddr caller r.amount }

/-- `cancelHiddenTransfer(_hash)` called by `caller` at block time `time`.
Requires, in source order: the caller is the recorded sender, the record is
not claimed, at least 7 days (604800 seconds) have elapsed since the
recorded timestamp, and the refund token transfer succeeds. -/
def cancelHiddenTransfer (s : EvmState) (caller time hash : Nat) : Except Err EvmState :=
  if (s.contract.hiddenTransfers hash).sender ≠ caller then .error .NotSender
  else if (s.contract.hiddenTransfers hash).claimed then .error .AlreadyClaimed
  else if time < (s.contract.hiddenTransfers hash).timestamp + 604800 then .error .TooEarly
  else if s.balances (s.contract.hiddenTransfers hash).token s.contract.contractAddr
      < (s.contract.hiddenTransfers hash).amount then .error .TokenTransferFailed
  else .ok (cancelResult s caller hash)

/-- `updatePlatformFee(_newFee)`: only the owner, and the new rate is
bounded by 500 basis points. -/
def updatePlatformFee (s : EvmState) (caller newFee : Nat) : Except Err EvmState :=
  if caller ≠ s.contract.owner then .error .NotOwner
  else if 500 < newFee then .error .FeeTooHigh
  else .ok { s with contract := { s.contract with platformFee := newFee } }

/-- `updateFeeCollector(_newCollector)`: only the owner, nonzero address. -/
def updateFeeCollector (s : EvmState) (caller newCollector : Nat) : Except Err EvmState :=
  if caller ≠ s.contract.owner then .error .NotOwner
  else if newCollector = 0 then .error .InvalidAddress
  else .ok { s with contract := { s.contract with feeCollector := newCollector } }

/-- `emergencyWithdraw(_token, _amount)`: only the owner; transfers from
the contract's custody to the owner. -/
def emergencyWithdraw (s : EvmState) (caller tok amt : Nat) : Except Err EvmState :=
  if caller ≠ s.contract.owner then .error .NotOwner
  else if s.balances tok s.contract.contractAddr < amt then .error .TokenTransferFailed
  else .ok { s with
    balances := tokenTransfer s.balances tok s.contract.contractAddr s.contract.owner amt }

/-- The `getHiddenTransfer` view. -/
def getHiddenTransfer (s : EvmState) (hash : Nat) : HiddenTransfer :=
  s.contract.hiddenTransfers hash

/-- Result shape of the `getStats` view. -/
structure Stats where
  total : Nat
  claimed : Nat
  pending : Nat
deriving Repr, DecidableEq

/-- `getStats()` returns `(totalTransfers, totalClaimed,
totalTransfers - totalClaimed)`. -/
def getStats (s : EvmState) : Stats :=
  { total := s.contract.totalTransfers
    claimed := s.contract.totalClaimed
    pending := s.contract.totalTransfers - s.contract.totalClaimed }

/-- Transaction semantics of a fallible call: a revert (error) leaves the
state unchanged. -/
def execTx (s : EvmState) (r : Except Err EvmState) : EvmState :=
  match r with
  | .ok s' => s'
  | .error _ => s

/-- One successful externally-submitted transaction.  The side conditions
`caller ≠ 0` and `0 < time` are facts of the EVM environment: no external
transaction originates from the zero address, and block timestamps are
positive. -/
inductive Step : EvmState → EvmState → Prop where
  | publish {s s' : EvmState} (caller time hash tok amt : Nat)
      (hc : caller ≠ 0) (ht : 0 < time)
      (hok : publishHiddenTransfer s caller time hash tok amt = .ok s') : Step s s'
  | claim {s s' : EvmState} (caller hash : Nat) (hc : caller ≠ 0)
      (hok : claimHiddenTransfer s caller hash = .ok s') : Step s s'
  | cancel {s s' : EvmState} (caller time hash : Nat) (hc : caller ≠ 0) (ht : 0 < time)
      (hok : cancelHiddenTransfer s caller time hash = .ok s') : Step s s'
  | updateFee {s s' : EvmState} (caller newFee : Nat)
      (hok : updatePlatformFee s caller newFee = .ok s') : Step s s'
  | updateCollector {s s' : EvmState} (caller newCollector : Nat)
      (hok : updateFeeCollector s caller newCollector = .ok s') : Step s s'
  | withdraw {s s' : EvmState} (caller tok amt : Nat)
      (hok : emergencyWithdraw s caller tok amt = .ok s') : Step s s'

/-- States reachable from a given deployment by successful transactions. -/
inductive Reachable (s0 : EvmState) : EvmState → Prop where
  | refl : Reachable s0 s0
  | step {s s' : EvmState} : Reachable s0 s → Step s s' → Reachable s0 s'

/-- Inversion of a successful publish: every guard passed and the result
state is `publishResult`. -/
theorem publish_ok_spec {s s' : EvmState} {caller time hash tok amt : Nat}
    (hok : publishHiddenTransfer s caller time hash tok amt = .ok s') :
    amt ≠ 0 ∧ (s.contract.hiddenTransfers hash).timestamp = 0 ∧ tok ≠ 0 ∧
    amt * s.contract.platformFee < U256 ∧
    amt * s.contract.platformFee / 10000 ≤ amt ∧
    amt ≤ s.balances tok caller ∧
    s' = publishResult s caller time hash tok amt := by
  unfold publishHiddenTransfer at hok
  split_ifs at hok with h1 h2 h3 h4 h5 h6 <;>
    first
      | exact Except.noConfusion hok
      | (injection hok with h
         exact ⟨h1, not_not.mp h2, h3, not_le.mp h4, not_lt.mp h5, not_lt.mp h6, h.symm⟩)

/-- Inversion of a successful claim: every guard passed and the result
state is `claimResult`. -/
theorem claim_ok_spec {s s' : EvmState} {caller hash : Nat}
    (hok : claimHiddenTransfer s caller hash = .ok s') :
    (s.contract.hiddenTransfers hash).timestamp ≠ 0 ∧
    (s.contract.hiddenTransfers hash).claimed = false ∧
    (s.contract.hiddenTransfers hash).amount ≠ 0 ∧
    (s.contract.hiddenTransfers hash).amount ≤
      s.balances (s.contract.hiddenTransfers hash).token s.contract.contractAddr ∧
    s' = claimResult s caller hash := by
  unfold claimHiddenTransfer at hok
  split_ifs at hok with h1 h2 h3 h4 <;>
    first
      | exact Except.noConfusion hok
      | (injection hok with h
         exact ⟨h1, by simpa using h2, h3, not_lt.mp h4, h.symm⟩)

/-- Inversion of a successful cancel: every guard passed and the result
state is `cancelResult`. -/
theorem cancel_ok_spec {s s' : EvmState} {caller time hash : Nat}
    (hok : cancelHiddenTransfer s caller time hash = .ok s') :
    (s.contract.hiddenTransfers hash).sender = caller ∧
    (s.contract.hiddenTransfers hash).claimed = false ∧
    (s.contract.hiddenTransfers hash).timestamp + 604800 ≤ time ∧
    (s.contract.hiddenTransfers hash).amount ≤
      s.balances (s.contract.hiddenTransfers hash).token s.contract.contractAddr ∧
    s' = cancelResult s caller hash := by
  unfold cancelHiddenTransfer at hok
  split_ifs at hok with h1 h2 h3 h4 <;>
    first
      | exact Except.noConfusion hok
      | (injection hok with h
         exact ⟨not_not.mp h1, by simpa using h2, not_lt.mp h3, not_lt.mp h4, h.symm⟩)

/-- Inversion of a successful fee update. -/
theorem updateFee_ok_spec {s s' : EvmState} {caller newFee : Nat}
    (hok : updatePlatformFee s caller newFee = .ok s') :
    caller = s.contract.owner ∧ newFee ≤ 500 ∧
    s' = { s with contract := { s.contract with platformFee := newFee } } := by
  unfold updatePlatformFee at hok
  split_ifs at hok with h1 h2 <;>
    first
      | exact Except.noConfusion hok
      | (injection hok with h
         exact ⟨not_not.mp h1, not_lt.mp h2, h.symm⟩)

/-- Inversion of a successful fee-collector update. -/
theorem updateCollector_ok_spec {s s' : EvmState} {caller newCollector : Nat}
    (hok : updateFeeCollector s caller newCollector = .ok s') :
    caller = s.contract.owner ∧ newCollector ≠ 0 ∧
    s' = { s with contract := { s.contract with feeCollector := newCollector } } := by
  unfold updateFeeCollector at hok
  split_ifs at hok with h1 h2 <;>
    first
      | exact Except.noConfusion hok
      | (injection hok with h
         exact ⟨not_not.mp h1, h2, h.symm⟩)

/-- Inversion of a successful emergency withdrawal. -/
theorem withdraw_ok_spec {s s' : EvmState} {caller tok amt : Nat}
    (hok : emergencyWithdraw s caller tok amt = .ok s') :
    caller = s.contract.owner ∧
    s' = { s with
      balances := tokenTransfer s.balances tok s.contract.contractAddr s.contract.owner amt } := by
  unfold emergencyWithdraw at hok
  split_ifs at hok with h1 h2 <;>
    first
      | exact Except.noConfusion hok
      | (injection hok with h
         exact ⟨not_not.mp h1, h.symm⟩)

/-- A transfer never touches an account that is neither source nor
destination. -/
theorem tokenTransfer_unrelated (b : Nat → Nat → Nat) (tok src dst amt t a : Nat)
    (h1 : a ≠ src) (h2 : a ≠ dst) : tokenTransfer b tok src dst amt t a = b t a := by
  unfold tokenTransfer
  split_ifs <;> simp_all

/-- A transfer between distinct accounts credits the destination. -/
theorem tokenTransfer_dst (b : Nat → Nat → Nat) (tok src dst amt : Nat)
    (h : src ≠ dst) : tokenTransfer b tok src dst amt tok dst = b tok dst + amt := by
  unfold tokenTransfer
  rw [if_pos rfl, if_neg h, if_neg (Ne.symm h), if_pos rfl]

/-- A transfer between distinct accounts debits the source. -/
theorem tokenTransfer_src (b : Nat → Nat → Nat) (tok src dst amt : Nat)
    (h : src ≠ dst) : tokenTransfer b tok src dst amt tok src = b tok src - amt := by
  unfold tokenTransfer
  rw [if_pos rfl, if_neg h, if_pos rfl]

/-- A concrete ambient token ledger for witness states. -/
def bEx : Nat → Nat → Nat := fun _ _ => 1000000

/-- Witness deployment: account 1 deploys the contract at address 7 with a
50 basis-point fee, so account 1 is owner and fee collector. -/
def sDeploy : EvmState := initState 1 7 50 bEx

/-- Witness state after account 1 publishes identifier 99 for 10000 units
of token 5 at block time 2 (fee 50, escrowed amount 9950). -/
def sPub : EvmState := execTx sDeploy (publishHiddenTransfer sDeploy 1 2 99 5 10000)

/-- C1: on an escrowed, unclaimed identifier whose record satisfies the
escrow-record invariant (positive amount) and whose escrowed amount is in
the contract's custody, the first `claimHiddenTransfer` by any caller
succeeds, flips `claimed`, and credits the caller with exactly the recorded
amount; every second claim on the same identifier fails with
`AlreadyClaimed` and, being a revert, moves no funds. -/
theorem claim_settles_once (s : EvmState) (hash caller : Nat)
    (hts : (s.contract.hiddenTransfers hash).timestamp ≠ 0)
    (hcl : (s.contract.hiddenTransfers hash).claimed = false)
    (ham : (s.contract.hiddenTransfers hash).amount ≠ 0)
    (hbal : (s.contract.hiddenTransfers hash).amount ≤
      s.balances (s.contract.hiddenTransfers hash).token s.contract.contractAddr)
    (hca : caller ≠ s.contract.contractAddr) :
    ∃ s', claimHiddenTransfer s caller hash = .ok s' ∧
      (s'.contract.hiddenTransfers hash).claimed = true ∧
      s'.balances (s.contract.hiddenTransfers hash).token caller =
        s.balances (s.contract.hiddenTransfers hash).token caller +
          (s.contract.hiddenTransfers hash).amount ∧
      ∀ c2, claimHiddenTransfer s' c2 hash = .error .AlreadyClaimed := by
  refine ⟨claimResult s caller hash, ?_, ?_, ?_, ?_⟩
  · unfold claimHiddenTransfer
    rw [if_neg hts, if_neg (by simp [hcl]), if_neg ham, if_neg (not_lt.mpr hbal)]
  · simp [claimResult]
  · simp only [claimResult]
    rw [tokenTransfer_dst _ _ _ _ _ (Ne.symm hca)]
  · intro c2
    unfold claimHiddenTransfer
    rw [if_neg (by simp [claimResult, hts]), if_pos (by simp [claimResult])]

/-- C1 witness: account 2 claims identifier 99 in the concrete published
state. -/
theorem claim_settles_once_witness :
    ∃ s', claimHiddenTransfer sPub 2 99 = .ok s' ∧
      (s'.contract.hiddenTransfers 99).claimed = true ∧
      s'.balances (sPub.contract.hiddenTransfers 99).token 2 =
        sPub.balances (sPub.contract.hiddenTransfers 99).token 2 +
          (sPub.contract.hiddenTransfers 99).amount ∧
      ∀ c2, claimHiddenTransfer s' c2 99 = .error .AlreadyClaimed :=
  claim_settles_once sPub 99 2 (by decide) (by decide) (by decide) (by decide)
    (by decide)

/-- C2: a publish whose identifier already carries a record (nonzero
timestamp sentinel) fails with `AlreadyExists`, and the reverted call
leaves the existing record unchanged.  The amount is assumed nonzero since
the zero-amount input-validation `require` precedes the sentinel check. -/
theorem publish_duplicate_rejected (s : EvmState) (caller time hash tok amt : Nat)
    (hex : (s.contract.hiddenTransfers hash).timestamp ≠ 0) (hamt : amt ≠ 0) :
    publishHiddenTransfer s caller time hash tok amt = .error .AlreadyExists ∧
    (execTx s (publishHiddenTransfer s caller time hash tok amt)).contract.hiddenTransfers
      hash = s.contract.hiddenTransfers hash := by
  have herr : publishHiddenTransfer s caller time hash tok amt = .error .AlreadyExists := by
    unfold publishHiddenTransfer
    rw [if_neg hamt, if_pos hex]
  refine ⟨herr, ?_⟩
  rw [herr]
  rfl

/-- C2 witness: re-publishing identifier 99 in the concrete published
state. -/
theorem publish_duplicate_rejected_witness :
    publishHiddenTransfer sPub 1 3 99 5 777 = .error .AlreadyExists ∧
    (execTx sPub (publishHiddenTransfer sPub 1 3 99 5 777)).contract.hiddenTransfers 99 =
      sPub.contract.hiddenTransfers 99 :=
  publish_duplicate_rejected sPub 1 3 99 5 777 (by decide) (by decide)

/-- C7: under the escrow-record invariant (existing records have positive
amount) and custody of the escrowed amount, `claimHiddenTransfer` fails
with `NotFound` exactly when no record exists, fails with `AlreadyClaimed`
exactly when the record is claimed, and otherwise succeeds — for every
caller, since no guard mentions the caller. -/
theorem claim_error_characterization (s : EvmState) (caller hash : Nat)
    (hinv : (s.contract.hiddenTransfers hash).timestamp ≠ 0 →
      (s.contract.hiddenTransfers hash).amount ≠ 0)
    (hbal : (s.contract.hiddenTransfers hash).amount ≤
      s.balances (s.contract.hiddenTransfers hash).token s.contract.contractAddr) :
    (claimHiddenTransfer s caller hash = .error .NotFound ↔
      (s.contract.hiddenTransfers hash).timestamp = 0) ∧
    (claimHiddenTransfer s caller hash = .error .AlreadyClaimed ↔
      ((s.contract.hiddenTransfers hash).timestamp ≠ 0 ∧
       (s.contract.hiddenTransfers hash).claimed = true)) ∧
    ((s.contract.hiddenTransfers hash).timestamp ≠ 0 →
      (s.contract.hiddenTransfers hash).claimed = false →
      claimHiddenTransfer s caller hash = .ok (claimResult s caller hash)) := by
  unfold claimHiddenTransfer
  split_ifs with h1 h2 h3 h4
  · simp [h1]
  · simp [h1, h2]
  · exact absurd h3 (hinv h1)
  · exact absurd hbal (not_le.mpr h4)
  · simp [h1, h2]

/-- C7 witness: the characterization at the concrete published state,
identifier 99, caller 2. -/
theorem claim_error_characterization_witness :
    (claimHiddenTransfer sPub 2 99 = .error .NotFound ↔
      (sPub.contract.hiddenTransfers 99).timestamp = 0) ∧
    (claimHiddenTransfer sPub 2 99 = .error .AlreadyClaimed ↔
      ((sPub.contract.hiddenTransfers 99).timestamp ≠ 0 ∧
       (sPub.contract.hiddenTransfers 99).claimed = true)) ∧
    ((sPub.contract.hiddenTransfers 99).timestamp ≠ 0 →
      (sPub.contract.hiddenTransfers 99).claimed = false →
      claimHiddenTransfer sPub 2 99 = .ok (claimResult sPub 2 99)) :=
  claim_error_characterization sPub 2 99 (by decide) (by decide)

/-- C9: a successful cancel leaves both counters unchanged — only claim
increments `totalClaimed` — so `getStats` still counts the cancelled
transfer as pending (`pending = totalTransfers - totalClaimed`) even though
the record's `claimed` flag is now true. -/
theorem cancel_keeps_pending_stats (s s' : EvmState) (caller time hash : Nat)
    (hok : cancelHiddenTransfer s caller time hash = .ok s') :
    s'.contract.totalClaimed = s.contract.totalClaimed ∧
    s'.contract.totalTransfers = s.contract.totalTransfers ∧
    (s'.contract.hiddenTransfers hash).claimed = true ∧
    (getStats s').pending = (getStats s).pending ∧
    (getStats s').pending = s'.contract.totalTransfers - s'.contract.totalClaimed := by
  obtain ⟨-, -, -, -, rfl⟩ := cancel_ok_spec hok
  exact ⟨rfl, rfl, by simp [cancelResult], rfl, rfl⟩

/-- C9 witness: the original sender cancels identifier 99 well after the
7-day window. -/
theorem cancel_keeps_pending_stats_witness :
    (execTx sPub (cancelHiddenTransfer sPub 1 700000 99)).contract.totalClaimed =
      sPub.contract.totalClaimed ∧
    (execTx sPub (cancelHiddenTransfer sPub 1 700000 99)).contract.totalTransfers =
      sPub.contract.totalTransfers ∧
    ((execTx sPub (cancelHiddenTransfer sPub 1 700000 99)).contract.hiddenTransfers
      99).claimed = true ∧
    (getStats (execTx sPub (cancelHiddenTransfer sPub 1 700000 99))).pending =
      (getStats sPub).pending ∧
    (getStats (execTx sPub (cancelHiddenTransfer sPub 1 700000 99))).pending =
      (execTx sPub (cancelHiddenTransfer sPub 1 700000 99)).contract.totalTransfers -
        (execTx sPub (cancelHiddenTransfer sPub 1 700000 99)).contract.totalClaimed :=
  cancel_keeps_pending_stats sPub (execTx sPub (cancelHiddenTransfer sPub 1 700000 99))
    1 700000 99 (by rfl)

/-- C10: claim and cancel rewrite the targeted record to the same record
with only `claimed` set (sender, token, amount, timestamp untouched), and
records under every other identifier are untouched by publish, claim and
cancel. -/
theorem ops_modify_only_claimed (s : EvmState) (caller time hash tok amt : Nat) :
    (∀ s', claimHiddenTransfer s caller hash = .ok s' →
      s'.contract.hiddenTransfers hash =
        { s.contract.hiddenTransfers hash with claimed := true } ∧
      ∀ h, h ≠ hash → s'.contract.hiddenTransfers h = s.contract.hiddenTransfers h) ∧
    (∀ s', cancelHiddenTransfer s caller time hash = .ok s' →
      s'.contract.hiddenTransfers hash =
        { s.contract.hiddenTransfers hash with claimed := true } ∧
      ∀ h, h ≠ hash → s'.contract.hiddenTransfers h = s.contract.hiddenTransfers h) ∧
    (∀ s', publishHiddenTransfer s caller time hash tok amt = .ok s' →
      ∀ h, h ≠ hash → s'.contract.hiddenTransfers h = s.contract.hiddenTransfers h) := by
  refine ⟨?_, ?_, ?_⟩
  · intro s' hok
    obtain ⟨-, -, -, -, rfl⟩ := claim_ok_spec hok
    exact ⟨by simp [claimResult], fun h hne => by simp [claimResult, hne]⟩
  · intro s' hok
    obtain ⟨-, -, -, -, rfl⟩ := cancel_ok_spec hok
    exact ⟨by simp [cancelResult], fun h hne => by simp [cancelResult, hne]⟩
  · intro s' hok
    obtain ⟨-, -, -, -, -, -, rfl⟩ := publish_ok_spec hok
    exact fun h hne => by simp [publishResult, hne]

/-- C10 witness: the frame property at the concrete published state for a
claim by account 2 on identifier 99. -/
theorem ops_modify_only_claimed_witness :
    (execTx sPub (claimHiddenTransfer sPub 2 99)).contract.hiddenTransfers 99 =
      { sPub.contract.hiddenTransfers 99 with claimed := true } ∧
    ∀ h, h ≠ 99 → (execTx sPub (claimHiddenTransfer sPub 2 99)).contract.hiddenTransfers h =
      sPub.contract.hiddenTransfers h :=
  (ops_modify_only_claimed sPub 2 0 99 5 0).1
    (execTx sPub (claimHiddenTransfer sPub 2 99)) (by rfl)

/-- C3 counterexample: in the concrete deployment the deployer (account 1)
is the fee collector and also the publishing sender.  The publish of 10000
units at 50 basis points succeeds with fee 50, but the collector's balance
moves from 1000000 to 990050 (it pays the full amount and gets the fee
back), not to the 1000050 the claim's balance clause predicts. -/
theorem publish_fee_collector_cex :
    publishHiddenTransfer sDeploy 1 2 99 5 10000 = .ok sPub ∧
    sPub.balances 5 sDeploy.contract.feeCollector = 990050 ∧
    sDeploy.balances 5 sDeploy.contract.feeCollector +
      10000 * sDeploy.contract.platformFee / 10000 = 1000050 ∧
    (990050 : Nat) ≠ 1000050 :=
  ⟨rfl, by decide, by decide, by decide⟩

/-- C3 amended: every successful publish records exactly
`amt - floor(amt * feeRate / 10000)` as the escrowed amount; and whenever
the fee collector is a third party (neither the publishing sender nor the
contract itself), its balance grows by exactly the fee in the same
operation. -/
theorem publish_fee_amended (s : EvmState) (caller time hash tok amt : Nat)
    (s' : EvmState)
    (hok : publishHiddenTransfer s caller time hash tok amt = .ok s') :
    (s'.contract.hiddenTransfers hash).amount =
      amt - amt * s.contract.platformFee / 10000 ∧
    (s.contract.feeCollector ≠ caller →
      s.contract.feeCollector ≠ s.contract.contractAddr →
      s'.balances tok s.contract.feeCollector =
        s.balances tok s.contract.feeCollector +
          amt * s.contract.platformFee / 10000) := by
  obtain ⟨-, -, -, -, -, -, rfl⟩ := publish_ok_spec hok
  refine ⟨by simp [publishResult], ?_⟩
  intro hc hca
  simp only [publishResult]
  by_cases h0 : 0 < amt * s.contract.platformFee / 10000
  · rw [if_pos h0, tokenTransfer_dst _ _ _ _ _ (Ne.symm hca),
      tokenTransfer_unrelated _ _ _ _ _ _ _ hc hca]
  · rw [if_neg h0, tokenTransfer_unrelated _ _ _ _ _ _ _ hc hca]
    omega

/-- Second witness deployment: account 3 deploys at address 7 with a
50 basis-point fee, so the fee collector (3) is a third party relative to
the publishing sender (1). -/
def sDeploy2 : EvmState := initState 3 7 50 bEx

/-- Witness state after account 1 publishes identifier 99 for 10000 units
of token 5 at block time 2 under the second deployment. -/
def sPub2 : EvmState := execTx sDeploy2 (publishHiddenTransfer sDeploy2 1 2 99 5 10000)

/-- C3 amended witness: the fee invariant at the third-party-collector
deployment. -/
theorem publish_fee_amended_witness :
    (sPub2.contract.hiddenTransfers 99).amount =
      10000 - 10000 * sDeploy2.contract.platformFee / 10000 ∧
    (sDeploy2.contract.feeCollector ≠ 1 →
      sDeploy2.contract.feeCollector ≠ sDeploy2.contract.contractAddr →
      sPub2.balances 5 sDeploy2.contract.feeCollector =
        sDeploy2.balances 5 sDeploy2.contract.feeCollector +
          10000 * sDeploy2.contract.platformFee / 10000) :=
  publish_fee_amended sDeploy2 1 2 99 5 10000 sPub2 (by rfl)

/-- C4: for an escrowed, unclaimed record whose escrowed amount is in
custody and whose sender is an external account, a cancel by the original
sender before 7 days (604800 s) past the recorded timestamp fails with
`TooEarly`; at or after that window it succeeds, sets `claimed`, and
refunds the full escrowed amount to the sender; and a cancel by any other
address fails with `NotSender` at every block time. -/
theorem cancel_spec (s : EvmState) (hash time : Nat)
    (hts : (s.contract.hiddenTransfers hash).timestamp ≠ 0)
    (hcl : (s.contract.hiddenTransfers hash).claimed = false)
    (hbal : (s.contract.hiddenTransfers hash).amount ≤
      s.balances (s.contract.hiddenTransfers hash).token s.contract.contractAddr)
    (hsc : (s.contract.hiddenTransfers hash).sender ≠ s.contract.contractAddr) :
    (time < (s.contract.hiddenTransfers hash).timestamp + 604800 →
      cancelHiddenTransfer s (s.contract.hiddenTransfers hash).sender time hash =
        .error .TooEarly) ∧
    ((s.contract.hiddenTransfers hash).timestamp + 604800 ≤ time →
      cancelHiddenTransfer s (s.contract.hiddenTransfers hash).sender time hash =
        .ok (cancelResult s (s.contract.hiddenTransfers hash).sender hash) ∧
      ((cancelResult s (s.contract.hiddenTransfers hash).sender hash).contract.hiddenTransfers
        hash).claimed = true ∧
      (cancelResult s (s.contract.hiddenTransfers hash).sender hash).balances
          (s.contract.hiddenTransfers hash).token
          (s.contract.hiddenTransfers hash).sender =
        s.balances (s.contract.hiddenTransfers hash).token
            (s.contract.hiddenTransfers hash).sender +
          (s.contract.hiddenTransfers hash).amount) ∧
    (∀ c t2, c ≠ (s.contract.hiddenTransfers hash).sender →
      cancelHiddenTransfer s c t2 hash = .error .NotSender) := by
  refine ⟨?_, ?_, ?_⟩
  · intro hearly
    unfold cancelHiddenTransfer
    rw [if_neg (by simp), if_neg (by simp [hcl]), if_pos hearly]
  · intro hlate
    refine ⟨?_, by simp [cancelResult], ?_⟩
    · unfold cancelHiddenTransfer
      rw [if_neg (by simp), if_neg (by simp [hcl]), if_neg (not_lt.mpr hlate),
        if_neg (not_lt.mpr hbal)]
    · simp only [cancelResult]
      rw [tokenTransfer_dst _ _ _ _ _ (Ne.symm hsc)]
  · intro c t2 hc
    unfold cancelHiddenTransfer
    rw [if_pos (Ne.symm hc)]

/-- C4 witness: the cancel behavior at the concrete published state
(sender 1, timestamp 2), with block time 700000 past the window. -/
theorem cancel_spec_witness :
    (700000 < (sPub.contract.hiddenTransfers 99).timestamp + 604800 →
      cancelHiddenTransfer sPub (sPub.contract.hiddenTransfers 99).sender 700000 99 =
        .error .TooEarly) ∧
    ((sPub.contract.hiddenTransfers 99).timestamp + 604800 ≤ 700000 →
      cancelHiddenTransfer sPub (sPub.contract.hiddenTransfers 99).sender 700000 99 =
        .ok (cancelResult sPub (sPub.contract.hiddenTransfers 99).sender 99) ∧
      ((cancelResult sPub (sPub.contract.hiddenTransfers 99).sender 99).contract.hiddenTransfers
        99).claimed = true ∧
      (cancelResult sPub (sPub.contract.hiddenTransfers 99).sender 99).balances
          (sPub.contract.hiddenTransfers 99).token
          (sPub.contract.hiddenTransfers 99).sender =
        sPub.balances (sPub.contract.hiddenTransfers 99).token
            (sPub.contract.hiddenTransfers 99).sender +
          (sPub.contract.hiddenTransfers 99).amount) ∧
    (∀ c t2, c ≠ (sPub.contract.hiddenTransfers 99).sender →
      cancelHiddenTransfer sPub c t2 99 = .error .NotSender) :=
  cancel_spec sPub 99 700000 (by decide) (by decide) (by decide) (by decide)

/-- Well-formedness of the record store: a slot with the zero-timestamp
sentinel is untouched, so its sender is the zero address and it is not
claimed.  This is what makes the sentinel a sound existence check. -/
def RecordsWF (s : EvmState) : Prop :=
  ∀ h, (s.contract.hiddenTransfers h).timestamp = 0 →
    (s.contract.hiddenTransfers h).sender = 0 ∧
    (s.contract.hiddenTransfers h).claimed = false

/-- Every successful transaction preserves record-store well-formedness. -/
theorem step_preserves_wf {s s' : EvmState} (hwf : RecordsWF s) (hs : Step s s') :
    RecordsWF s' := by
  cases hs with
  | publish caller time hash tok amt hc ht hok =>
    obtain ⟨-, -, -, -, -, -, rfl⟩ := publish_ok_spec hok
    intro h h0
    by_cases he : h = hash
    · subst he
      simp [publishResult] at h0
      omega
    · simp only [publishResult] at h0 ⊢
      simp only [he, if_false] at h0 ⊢
      exact hwf h h0
  | claim caller hash hc hok =>
    obtain ⟨hts, -, -, -, rfl⟩ := claim_ok_spec hok
    intro h h0
    by_cases he : h = hash
    · subst he
      simp [claimResult] at h0
      exact absurd h0 hts
    · simp only [claimResult] at h0 ⊢
      simp only [he, if_false] at h0 ⊢
      exact hwf h h0
  | cancel caller time hash hc ht hok =>
    obtain ⟨hsd, -, -, -, rfl⟩ := cancel_ok_spec hok
    intro h h0
    by_cases he : h = hash
    · subst he
      simp [cancelResult] at h0
      obtain ⟨hs0, -⟩ := hwf _ h0
      exact absurd (hsd.symm.trans hs0) hc
    · simp only [cancelResult] at h0 ⊢
      simp only [he, if_false] at h0 ⊢
      exact hwf h h0
  | updateFee caller newFee hok =>
    obtain ⟨-, -, rfl⟩ := updateFee_ok_spec hok
    exact hwf
  | updateCollector caller newCollector hok =>
    obtain ⟨-, -, rfl⟩ := updateCollector_ok_spec hok
    exact hwf
  | withdraw caller tok amt hok =>
    obtain ⟨-, rfl⟩ := withdraw_ok_spec hok
    exact hwf

/-- Record-store well-formedness holds in every reachable state. -/
theorem reachable_wf (d ca f0 : Nat) (b0 : Nat → Nat → Nat) (s : EvmState)
    (hr : Reachable (initState d ca f0 b0) s) : RecordsWF s := by
  induction hr with
  | refl => exact fun h _ => ⟨rfl, rfl⟩
  | step hr2 hs2 ih => exact step_preserves_wf ih hs2

/-- C5: along every transaction step out of a reachable state, an existing
record (nonzero timestamp) keeps its sender, token, amount and timestamp,
and a claimed record is frozen entirely — so `claimed` only ever moves
false → true and no record is deleted or re-created. -/
theorem escrow_record_monotone (d ca f0 : Nat) (b0 : Nat → Nat → Nat)
    (s s' : EvmState) (hr : Reachable (initState d ca f0 b0) s) (hs : Step s s')
    (h : Nat) :
    ((s.contract.hiddenTransfers h).timestamp ≠ 0 →
      (s'.contract.hiddenTransfers h).sender = (s.contract.hiddenTransfers h).sender ∧
      (s'.contract.hiddenTransfers h).token = (s.contract.hiddenTransfers h).token ∧
      (s'.contract.hiddenTransfers h).amount = (s.contract.hiddenTransfers h).amount ∧
      (s'.contract.hiddenTransfers h).timestamp =
        (s.contract.hiddenTransfers h).timestamp) ∧
    ((s.contract.hiddenTransfers h).claimed = true →
      s'.contract.hiddenTransfers h = s.contract.hiddenTransfers h) := by
  have hwf := reachable_wf d ca f0 b0 s hr
  cases hs with
  | publish caller time hash tok amt hc ht hok =>
    obtain ⟨-, hts0, -, -, -, -, rfl⟩ := publish_ok_spec hok
    by_cases he : h = hash
    · subst he
      refine ⟨fun hts => absurd hts0 hts, fun hcl => ?_⟩
      obtain ⟨-, hcf⟩ := hwf h hts0
      simp [hcf] at hcl
    · exact ⟨fun _ => by simp [publishResult, he], fun _ => by simp [publishResult, he]⟩
  | claim caller hash hc hok =>
    obtain ⟨-, hclf, -, -, rfl⟩ := claim_ok_spec hok
    by_cases he : h = hash
    · subst he
      exact ⟨fun _ => by simp [claimResult], fun hcl => by simp [hclf] at hcl⟩
    · exact ⟨fun _ => by simp [claimResult, he], fun _ => by simp [claimResult, he]⟩
  | cancel caller time hash hc ht hok =>
    obtain ⟨-, hclf, -, -, rfl⟩ := cancel_ok_spec hok
    by_cases he : h = hash
    · subst he
      exact ⟨fun _ => by simp [cancelResult], fun hcl => by simp [hclf] at hcl⟩
    · exact ⟨fun _ => by simp [cancelResult, he], fun _ => by simp [cancelResult, he]⟩
  | updateFee caller newFee hok =>
    obtain ⟨-, -, rfl⟩ := updateFee_ok_spec hok
    exact ⟨fun _ => ⟨rfl, rfl, rfl, rfl⟩, fun _ => rfl⟩
  | updateCollector caller newCollector hok =>
    obtain ⟨-, -, rfl⟩ := updateCollector_ok_spec hok
    exact ⟨fun _ => ⟨rfl, rfl, rfl, rfl⟩, fun _ => rfl⟩
  | withdraw caller tok amt hok =>
    obtain ⟨-, rfl⟩ := withdraw_ok_spec hok
    exact ⟨fun _ => ⟨rfl, rfl, rfl, rfl⟩, fun _ => rfl⟩

/-- C5 witness: the monotonicity conclusion across the concrete publish
step out of the deployment state, for identifier 42. -/
theorem escrow_record_monotone_witness :
    ((sDeploy.contract.hiddenTransfers 42).timestamp ≠ 0 →
      (sPub.contract.hiddenTransfers 42).sender =
        (sDeploy.contract.hiddenTransfers 42).sender ∧
      (sPub.contract.hiddenTransfers 42).token =
        (sDeploy.contract.hiddenTransfers 42).token ∧
      (sPub.contract.hiddenTransfers 42).amount =
        (sDeploy.contract.hiddenTransfers 42).amount ∧
      (sPub.contract.hiddenTransfers 42).timestamp =
        (sDeploy.contract.hiddenTransfers 42).timestamp) ∧
    ((sDeploy.contract.hiddenTransfers 42).claimed = true →
      sPub.contract.hiddenTransfers 42 = sDeploy.contract.hiddenTransfers 42) :=
  escrow_record_monotone 1 7 50 bEx sDeploy sPub Reachable.refl
    (Step.publish 1 2 99 5 10000 (by decide) (by decide) (by rfl)) 42

/-- Every successful transaction keeps the fee rate within the 500
basis-point bound once it holds. -/
theorem step_fee_bound {s s' : EvmState} (hs : Step s s')
    (hb : s.contract.platformFee ≤ 500) : s'.contract.platformFee ≤ 500 := by
  cases hs with
  | publish caller time hash tok amt hc ht hok =>
    obtain ⟨-, -, -, -, -, -, rfl⟩ := publish_ok_spec hok
    exact hb
  | claim caller hash hc hok =>
    obtain ⟨-, -, -, -, rfl⟩ := claim_ok_spec hok
    exact hb
  | cancel caller time hash hc ht hok =>
    obtain ⟨-, -, -, -, rfl⟩ := cancel_ok_spec hok
    exact hb
  | updateFee caller newFee hok =>
    obtain ⟨-, hf, rfl⟩ := updateFee_ok_spec hok
    exact hf
  | updateCollector caller newCollector hok =>
    obtain ⟨-, -, rfl⟩ := updateCollector_ok_spec hok
    exact hb
  | withdraw caller tok amt hok =>
    obtain ⟨-, rfl⟩ := withdraw_ok_spec hok
    exact hb

/-- C6 counterexample: the constructor performs no bound check, so
deploying with 600 basis points yields a reachable state (the deployment
state itself) whose fee rate exceeds 500. -/
theorem fee_bound_cex :
    Reachable (initState 1 7 600 bEx) (initState 1 7 600 bEx) ∧
    500 < (initState 1 7 600 bEx).contract.platformFee :=
  ⟨Reachable.refl, by decide⟩

/-- C6 amended: `updatePlatformFee` rejects non-owner callers and any rate
above 500 and accepts owner calls at or below 500; `updateFeeCollector` is
owner-only; and the 500 basis-point bound holds in every reachable state
provided the deployment-time rate respected it — the constructor itself
does not enforce the bound. -/
theorem fee_admin_amended (d ca f0 : Nat) (b0 : Nat → Nat → Nat) (s : EvmState)
    (hf0 : f0 ≤ 500) (hr : Reachable (initState d ca f0 b0) s) :
    s.contract.platformFee ≤ 500 ∧
    (∀ c f, c ≠ s.contract.owner → updatePlatformFee s c f = .error .NotOwner) ∧
    (∀ f, 500 < f → updatePlatformFee s s.contract.owner f = .error .FeeTooHigh) ∧
    (∀ f, f ≤ 500 → updatePlatformFee s s.contract.owner f =
      .ok { s with contract := { s.contract with platformFee := f } }) ∧
    (∀ c a2, c ≠ s.contract.owner → updateFeeCollector s c a2 = .error .NotOwner) := by
  refine ⟨?_, ?_, ?_, ?_, ?_⟩
  · induction hr with
    | refl => exact hf0
    | step hr2 hs2 ih => exact step_fee_bound hs2 ih
  · intro c f hc
    unfold updatePlatformFee
    rw [if_pos hc]
  · intro f hf
    unfold updatePlatformFee
    rw [if_neg (by simp), if_pos hf]
  · intro f hf
    unfold updatePlatformFee
    rw [if_neg (by simp), if_neg (not_lt.mpr hf)]
  · intro c a2 hc
    unfold updateFeeCollector
    rw [if_pos hc]

/-- C6 amended witness: the fee-governance facts at the concrete
deployment state. -/
theorem fee_admin_amended_witness :
    sDeploy.contract.platformFee ≤ 500 ∧
    (∀ c f, c ≠ sDeploy.contract.owner →
      updatePlatformFee sDeploy c f = .error .NotOwner) ∧
    (∀ f, 500 < f → updatePlatformFee sDeploy sDeploy.contract.owner f =
      .error .FeeTooHigh) ∧
    (∀ f, f ≤ 500 → updatePlatformFee sDeploy sDeploy.contract.owner f =
      .ok { sDeploy with contract := { sDeploy.contract with platformFee := f } }) ∧
    (∀ c a2, c ≠ sDeploy.contract.owner →
      updateFeeCollector sDeploy c a2 = .error .NotOwner) :=
  fee_admin_amended 1 7 50 bEx sDeploy (by decide) Reachable.refl

/-- Modelled from the spec: the backend commitment generator
(`backend/crypto_utils.py`, not present under `src/`).  Per the README's
generate-hash flow, the payload string
`sender:recipient:amount:token:salt:timestamp` is built from the transfer
parameters, a fresh random 32-byte salt and the creation timestamp; amounts
and timestamps enter as their textual renderings. -/
def mkPayload (sender recipient amount token salt timestamp : String) : String :=
  sender ++ ":" ++ recipient ++ ":" ++ amount ++ ":" ++ token ++ ":" ++ salt ++
    ":" ++ timestamp

/-- Modelled from the spec: `identifier = Hash(payload)`, with the
collision-resistant hash abstracted as a function parameter. -/
def generateHash {α : Type} (hashFn : String → α)
    (sender recipient amount token salt timestamp : String) : α :=
  hashFn (mkPayload sender recipient amount token salt timestamp)

/-- The data of the separator literal. -/
theorem colon_data : (":" : String).data = [Char.ofNat 58] := rfl

/-- Distinct equal-length salts give distinct payloads, whatever the other
fields are (the salt is a fixed-length hex string, so equal length is the
operative well-formedness condition). -/
theorem mkPayload_salt_injective (sender recipient amount token s1 s2 t1 t2 : String)
    (hlen : s1.length = s2.length)
    (heq : mkPayload sender recipient amount token s1 t1 =
      mkPayload sender recipient amount token s2 t2) : s1 = s2 := by
  have hd := congrArg String.data heq
  simp only [mkPayload, String.data_append, colon_data, List.append_assoc,
    List.singleton_append, List.cons_append, List.nil_append] at hd
  have h1 := List.append_cancel_left hd
  simp only [List.cons.injEq, true_and] at h1
  have h2 := List.append_cancel_left h1
  simp only [List.cons.injEq, true_and] at h2
  have h3 := List.append_cancel_left h2
  simp only [List.cons.injEq, true_and] at h3
  have h4 := List.append_cancel_left h3
  simp only [List.cons.injEq, true_and] at h4
  have h5 := (List.append_inj h4 hlen).1
  cases s1; cases s2; exact congrArg String.mk h5

/-- C8: two identifier generations with the same transfer parameters but
distinct (fresh) salts of the standard fixed length yield distinct
identifiers, for every collision-free hash function — the salt is hashed
into the identifier, so salt freshness randomizes it. -/
theorem generateHash_fresh_salt {α : Type} (hashFn : String → α)
    (hinj : Function.Injective hashFn)
    (sender recipient amount token s1 s2 t1 t2 : String)
    (hlen : s1.length = s2.length) (hne : s1 ≠ s2) :
    generateHash hashFn sender recipient amount token s1 t1 ≠
      generateHash hashFn sender recipient amount token s2 t2 := by
  intro h
  exact hne (mkPayload_salt_injective sender recipient amount token s1 s2 t1 t2
    hlen (hinj h))

/-- A concrete two-character salt. -/
def saltA : String := "aa"

/-- A distinct concrete two-character salt of the same length. -/
def saltB : String := "ab"

/-- Concrete sender address string for the C8 witness. -/
def exSender : String := "0xAlice"

/-- Concrete recipient address string for the C8 witness. -/
def exRecipient : String := "0xBob"

/-- Concrete amount string for the C8 witness. -/
def exAmount : String := "100"

/-- Concrete token symbol string for the C8 witness. -/
def exToken : String := "USDC"

/-- Concrete timestamp string for the C8 witness. -/
def exTime : String := "1707312000"

/-- C8 witness: with the identity embedding as an injective hash, the two
concrete salts produce distinct identifiers. -/
theorem generateHash_fresh_salt_witness :
    generateHash (fun p : String => p) exSender exRecipient exAmount exToken
      saltA exTime ≠
    generateHash (fun p : String => p) exSender exRecipient exAmount exToken
      saltB exTime :=
  generateHash_fresh_salt (fun p : String => p) (fun _ _ h => h) exSender
    exRecipient exAmount exToken saltA saltB exTime exTime (by decide) (by decide)

end Spectre
